import Mathlib

/-!
Verification of the recommendation engine of the Integrated-Recommendation-System
repository, shallowly embedded in Lean 4.

The embedding follows the Python sources:
  * `app/core/data_processor.py`  — `DataProcessor.get_user_product_matrix`
    (pandas `pivot(...).fillna(0)`) and `DataProcessor.get_product_similarity`;
  * `app/core/recommender.py`     — `Recommender.get_recommendations`,
    `Recommender._generate_explanation`, `Recommender.get_user_history`;
  * `app/api/slack_main.py`       — `get_recommendations_for_user` (the
    cold-start / popularity fallback path).

Ids are `String`s (pandas labels / Mongo ids); ratings and similarity scores
are `ℚ` (the engine's float arithmetic on the inputs used here is exact, so ℚ
is a faithful carrier).  Cosine-similarity matrices are *inputs* of the
embedded functions: `sklearn.metrics.pairwise.cosine_similarity` works on
floats and is not re-modelled; every concrete similarity matrix used below is
one whose exact value the float computation also produces (identical rows give
cosine exactly 1, orthogonal rows give exactly 0, a row against itself gives
exactly 1).

`np.argsort` is modelled as a *stable* ascending argsort (ties keep the
original index order), i.e. the order the spec itself assumes.  Fallible
Python code (pandas `pivot` on duplicate pairs, `np.average` with a zero
weight sum) is modelled with `Except`.
-/

attribute [local semireducible] Rat.add Rat.mul Rat.inv Rat.sub

/-- Lexicographic comparison of character lists by code point — the order
pandas sorts string labels in. -/
def charListLt : List Char → List Char → Bool
  | [], [] => false
  | [], _ :: _ => true
  | _ :: _, [] => false
  | a :: as, b :: bs =>
    if a.toNat < b.toNat then true
    else if b.toNat < a.toNat then false
    else charListLt as bs

/-- `a ≤ b` on strings (code-point lexicographic): not `b < a`. -/
def strLe (a b : String) : Prop := charListLt b.data a.data = false

instance strLe_decidable : DecidableRel strLe := fun _ _ =>
  inferInstanceAs (Decidable (_ = false))

/-- A rating record `{userId, productId, rating}` (timestamp irrelevant here). -/
structure Rating where
  userId : String
  productId : String
  rating : ℚ
deriving DecidableEq

/-- The pivoted user×product rating matrix: `rowIds` are the (sorted, distinct)
userIds, `colIds` the (sorted, distinct) productIds, `rows` the cell values in
that order; missing cells hold the sentinel `0`. -/
structure RatingMatrix where
  rowIds : List String
  colIds : List String
  rows : List (List ℚ)
deriving DecidableEq

/-- Distinct elements of `l`, sorted ascending — pandas `pivot` sorts the
row/column labels lexicographically. -/
def sortedDedup (l : List String) : List String :=
  List.insertionSort strLe l.dedup

/-- `DataProcessor.get_user_product_matrix`:
`ratings_df.pivot(index='userId', columns='productId', values='rating').fillna(0)`.
pandas `pivot` raises `ValueError` when some (userId, productId) pair occurs
twice; otherwise each cell holds the unique matching rating, `0` when absent. -/
def get_user_product_matrix (ratings : List Rating) : Except String RatingMatrix :=
  if (ratings.map (fun r => (r.userId, r.productId))).Nodup then
    Except.ok
      { rowIds := sortedDedup (ratings.map (fun r => r.userId))
        colIds := sortedDedup (ratings.map (fun r => r.productId))
        rows := (sortedDedup (ratings.map (fun r => r.userId))).map (fun u =>
          (sortedDedup (ratings.map (fun r => r.productId))).map (fun p =>
            match ratings.find? (fun r => r.userId == u && r.productId == p) with
            | some r => r.rating
            | none => 0)) }
  else
    Except.error "ValueError: Index contains duplicate entries, cannot reshape"

/-- Well-formedness of a rating matrix: one row per row id, rows as long as the
column header, no duplicate labels.  Every matrix produced by
`get_user_product_matrix` satisfies this. -/
def RatingMatrix.WF (m : RatingMatrix) : Prop :=
  m.rows.length = m.rowIds.length ∧
  (∀ row ∈ m.rows, row.length = m.colIds.length) ∧
  m.colIds.Nodup ∧ m.rowIds.Nodup

instance (m : RatingMatrix) : Decidable m.WF := by
  unfold RatingMatrix.WF; infer_instance

/-- `pandas.Index.get_loc` / `index.get_loc(user_id)`: position of the first
occurrence of `x` in `l`, `none` when absent (the Python call raises
`KeyError` then). -/
def get_loc : List String → String → Option ℕ
  | [], _ => none
  | a :: l, x => if a = x then some 0 else (get_loc l x).map (fun i => i + 1)

/-- Row `i` of the matrix (`.iloc[i]`); `[]` when out of range. -/
def rowOf (m : RatingMatrix) (i : ℕ) : List ℚ := m.rows.getD i []

/-- The comparison `np.argsort` sorts by: ascending value, ties broken by the
original (ascending) index — the stable argsort order. -/
def ascR (a : List ℚ) (i j : ℕ) : Prop :=
  a.getD i 0 < a.getD j 0 ∨ (a.getD i 0 = a.getD j 0 ∧ i ≤ j)

instance ascR_decidable (a : List ℚ) : DecidableRel (ascR a) := fun i j =>
  inferInstanceAs (Decidable (a.getD i 0 < a.getD j 0 ∨ (a.getD i 0 = a.getD j 0 ∧ i ≤ j)))

instance ascR_total (a : List ℚ) : IsTotal ℕ (ascR a) := by
  constructor
  intro i j
  rcases lt_trichotomy (a.getD i 0) (a.getD j 0) with h | h | h
  · exact Or.inl (Or.inl h)
  · rcases Nat.le_total i j with hij | hij
    · exact Or.inl (Or.inr ⟨h, hij⟩)
    · exact Or.inr (Or.inr ⟨h.symm, hij⟩)
  · exact Or.inr (Or.inl h)

instance ascR_trans (a : List ℚ) : IsTrans ℕ (ascR a) := by
  constructor
  intro i j k hij hjk
  rcases hij with h1 | ⟨h1, h1'⟩
  · rcases hjk with h2 | ⟨h2, _⟩
    · exact Or.inl (h1.trans h2)
    · exact Or.inl (h2 ▸ h1)
  · rcases hjk with h2 | ⟨h2, h2'⟩
    · exact Or.inl (h1 ▸ h2)
    · exact Or.inr ⟨h1.trans h2, h1'.trans h2'⟩

/-- `np.argsort(a)` with stable tie-breaking: the indices `0, …, a.length-1`
sorted ascending by value, ties in original order. -/
def argsort (a : List ℚ) : List ℕ :=
  List.insertionSort (ascR a) (List.range a.length)

/-- The order the *reversed* argsort is sorted by: descending value, ties
broken by descending index. -/
def descR (a : List ℚ) (i j : ℕ) : Prop := ascR a j i

/-- `a.argsort()[::-1][1:k+1]` — the selection both neighbor choice
(`recommender.py`, slice `[1:11]`) and content similarity
(`data_processor.py`, slice `[1:n_similar+1]`) use. -/
def selectTop (a : List ℚ) (k : ℕ) : List ℕ :=
  (((argsort a).reverse).drop 1).take k

/-- One entry of the list `Recommender.get_recommendations` returns:
`{'product_id': …, 'score': …, 'explanation': …}`. -/
structure Prediction where
  product_id : String
  score : ℚ
  explanation : String
deriving DecidableEq

/-- The order `predictions.sort(key=lambda x: x['score'], reverse=True)` sorts
by (descending score; Python's sort is stable, so ties keep list order). -/
def byScoreDesc (a b : Prediction) : Prop := b.score ≤ a.score

instance byScoreDesc_decidable : DecidableRel byScoreDesc := fun a b =>
  inferInstanceAs (Decidable (b.score ≤ a.score))

instance byScoreDesc_total : IsTotal Prediction byScoreDesc :=
  ⟨fun a b => le_total b.score a.score⟩

instance byScoreDesc_trans : IsTrans Prediction byScoreDesc :=
  ⟨fun _ _ _ h1 h2 => le_trans h2 h1⟩

/-- The order `x.sort(key=lambda x: x[1], reverse=True)` sorts `(id, score)`
pairs by (descending second component; stable). -/
def bySndDesc (a b : String × ℚ) : Prop := b.2 ≤ a.2

instance bySndDesc_decidable : DecidableRel bySndDesc := fun a b =>
  inferInstanceAs (Decidable (b.2 ≤ a.2))

instance bySndDesc_total : IsTotal (String × ℚ) bySndDesc :=
  ⟨fun a b => le_total b.2 a.2⟩

instance bySndDesc_trans : IsTrans (String × ℚ) bySndDesc :=
  ⟨fun _ _ _ h1 h2 => le_trans h2 h1⟩

/-- Column indices of the products the user has the sentinel `0` for:
`user_ratings[user_ratings == 0].index`, in column order. -/
def unratedIdxs (userRow : List ℚ) : List ℕ :=
  (List.range userRow.length).filter (fun j => userRow.getD j 0 = 0)

/-- The selected neighbors' ratings for column `j`:
`similar_users_ratings[product]`. -/
def neighborRatings (m : RatingMatrix) (nb : List ℕ) (j : ℕ) : List ℚ :=
  nb.map (fun i => (rowOf m i).getD j 0)

/-- The similarity weights of the selected neighbors:
`user_similarities[similar_users]`. -/
def nbWeights (simRow : List ℚ) (nb : List ℕ) : List ℚ :=
  nb.map (fun i => simRow.getD i 0)

/-- `np.average(values, weights=weights)`: raises `ZeroDivisionError` when the
weights sum to zero, otherwise `Σ wᵢ·vᵢ / Σ wᵢ`. -/
def npAverage (values weights : List ℚ) : Except String ℚ :=
  if (weights.sum) = 0 then
    Except.error "ZeroDivisionError: Weights sum to zero"
  else
    Except.ok ((List.zipWith (fun w v => w * v) weights values).sum / weights.sum)

/-- `Recommender._generate_explanation`: counts the selected neighbors with a
rating ≥ 4 for the product. -/
def generate_explanation (m : RatingMatrix) (nb : List ℕ) (j : ℕ) : String :=
  let high := (neighborRatings m nb j).countP (fun x => 4 ≤ x)
  if 0 < high then
    "Recommended because " ++ toString high ++ " similar users rated this product highly"
  else
    "Recommended based on similar users' preferences"

/-- The `for product in unrated_products:` loop of
`Recommender.get_recommendations`: a product is appended when the neighbors'
ratings for it sum to a positive value; its score is the similarity-weighted
average of those ratings (which raises when the weights sum to zero). -/
def predLoop (m : RatingMatrix) (nb : List ℕ) (simRow : List ℚ) :
    List ℕ → Except String (List Prediction)
  | [] => Except.ok []
  | j :: rest =>
    let prs := neighborRatings m nb j
    if 0 < prs.sum then
      match npAverage prs (nbWeights simRow nb) with
      | Except.error e => Except.error e
      | Except.ok s =>
        (predLoop m nb simRow rest).map (fun ps =>
          { product_id := m.colIds.getD j ""
            score := s
            explanation := generate_explanation m nb j } :: ps)
    else
      predLoop m nb simRow rest

/-- The full prediction list a known user gets (before sorting/truncation),
given the user's row index.  `simM` is the cosine user-similarity matrix
(`cosine_similarity(self.user_product_matrix)`), supplied as data. -/
def predictionsOf (m : RatingMatrix) (simM : List (List ℚ)) (uidx : ℕ) :
    Except String (List Prediction) :=
  predLoop m (selectTop (simM.getD uidx []) 10) (simM.getD uidx [])
    (unratedIdxs (rowOf m uidx))

/-- The neighbor set `Recommender.get_recommendations` predicts from:
`np.argsort(user_similarities)[::-1][1:11]` (empty for an unknown user, which
returns early). -/
def neighborsUsed (m : RatingMatrix) (simM : List (List ℚ)) (userId : String) :
    List ℕ :=
  match get_loc m.rowIds userId with
  | none => []
  | some uidx => selectTop (simM.getD uidx []) 10

/-- `Recommender.get_recommendations(user_id, n_recommendations)`: unknown
user → `[]` (the `KeyError` is caught); known user → predictions sorted by
score descending (Python's stable sort) and truncated. -/
def get_recommendations (m : RatingMatrix) (simM : List (List ℚ))
    (userId : String) (nRecs : ℕ) : Except String (List Prediction) :=
  match get_loc m.rowIds userId with
  | none => Except.ok []
  | some uidx =>
    (predictionsOf m simM uidx).map (fun preds =>
      (List.insertionSort byScoreDesc preds).take nRecs)

/-- `Recommender.get_user_history(user_id)`: unknown user → `[]` (the
`KeyError` is caught); known user → the `(productId, rating)` pairs of the
cells of the user's row with value `> 0`, in column order. -/
def get_user_history (m : RatingMatrix) (userId : String) : List (String × ℚ) :=
  match get_loc m.rowIds userId with
  | none => []
  | some uidx =>
    ((m.colIds.zip (rowOf m uidx)).filter (fun x => 0 < x.2))

/-- `DataProcessor.get_product_similarity(product_id, n_similar)`.  `products`
is the catalog's productId column in row order; `scores` is the flattened
cosine-similarity row of the target product against all product TF-IDF
vectors (`cosine_similarity(product_vector, self.product_vectors).flatten()`),
supplied as data.  An absent productId returns `[]`. -/
def get_product_similarity (products : List String) (scores : List ℚ)
    (productId : String) (nSimilar : ℕ) : List (String × ℚ) :=
  match get_loc products productId with
  | none => []
  | some _ =>
    (selectTop scores nSimilar).map (fun i => (products.getD i "", scores.getD i 0))

/-- Insertion-order-deduplicated keys, as iterating a Python dict built by
insertion yields them (first occurrence first). -/
def firstOccur (l : List String) : List String :=
  l.foldl (fun acc a => if a ∈ acc then acc else acc ++ [a]) []

/-- Number of ratings of product `pid` (the `count` field of the popularity
dict in `slack_main.get_recommendations_for_user`). -/
def ratingCount (rs : List Rating) (pid : String) : ℕ :=
  (rs.filter (fun r => r.productId == pid)).length

/-- Sum of the ratings of product `pid` (the `sum` field of the popularity
dict). -/
def ratingSum (rs : List Rating) (pid : String) : ℚ :=
  ((rs.filter (fun r => r.productId == pid)).map (fun r => r.rating)).sum

/-- The cold-start popularity ranking of
`slack_main.get_recommendations_for_user`: every product with at least 5
ratings, paired with its mean rating, sorted by mean descending (Python's
stable `sort(…, reverse=True)`). -/
def popularProducts (rs : List Rating) : List (String × ℚ) :=
  List.insertionSort bySndDesc
    ((firstOccur (rs.map (fun r => r.productId))).filterMap (fun pid =>
      if 5 ≤ ratingCount rs pid then
        some (pid, ratingSum rs pid / (ratingCount rs pid : ℚ))
      else none))

/-- The known-user branch of `slack_main.get_recommendations_for_user`: plain
(unweighted) mean of the selected neighbors' ratings per unrated product, kept
when positive (the empty-neighbor mean is NaN, and `NaN > 0` is false), sorted
by predicted rating descending, top 10. -/
def slackKnownBranch (m : RatingMatrix) (simM : List (List ℚ)) (uidx : ℕ) :
    List (String × ℚ) :=
  let simRow := simM.getD uidx []
  let nb := selectTop simRow 10
  let preds := (unratedIdxs (rowOf m uidx)).filterMap (fun j =>
    let nr := neighborRatings m nb j
    if nr.length = 0 then none
    else if 0 < nr.sum / (nr.length : ℚ) then
      some (m.colIds.getD j "", nr.sum / (nr.length : ℚ))
    else none)
  (List.insertionSort bySndDesc preds).take 10

/-- `slack_main.get_recommendations_for_user(user_id, user_product_matrix)`:
a userId absent from the matrix gets the popularity fallback (top 10 by mean
among products with ≥ 5 ratings); a known user gets the mean-based
collaborative predictions.  `allRatings` is the ratings collection the
fallback re-reads (`ratings.find()`), the same records the matrix was pivoted
from. -/
def get_recommendations_for_user (allRatings : List Rating) (m : RatingMatrix)
    (simM : List (List ℚ)) (userId : String) : List (String × ℚ) :=
  if userId ∈ m.rowIds then
    match get_loc m.rowIds userId with
    | none => []
    | some uidx => slackKnownBranch m simM uidx
  else
    (popularProducts allRatings).take 10

/-- The score expression `np.average` produces for column `j`:
`Σ wᵢ·ratingᵢ(j) / Σ wᵢ` over the selected neighbors. -/
def predScore (m : RatingMatrix) (simRow : List ℚ) (nb : List ℕ) (j : ℕ) : ℚ :=
  (List.zipWith (fun w v => w * v) (nbWeights simRow nb) (neighborRatings m nb j)).sum /
    (nbWeights simRow nb).sum

/-- The prediction record appended for column `j`. -/
def mkPrediction (m : RatingMatrix) (simRow : List ℚ) (nb : List ℕ) (j : ℕ) :
    Prediction :=
  { product_id := m.colIds.getD j ""
    score := predScore m simRow nb j
    explanation := generate_explanation m nb j }



/-! ### Concrete instances

Concrete datasets used to evaluate the embedded functions.  Each similarity
matrix below is the exact cosine-similarity matrix of its rating matrix:
identical rows have cosine exactly 1, orthogonal rows exactly 0 (both also
exact in floating point). -/

/-- Two users with identical single-product ratings (cosine 1 everywhere). -/
def ratingsPair : List Rating := [⟨"u1", "p1", 5⟩, ⟨"u2", "p1", 5⟩]

/-- The pivot of `ratingsPair`. -/
def mPair : RatingMatrix := ⟨["u1", "u2"], ["p1"], [[5], [5]]⟩

/-- `cosine_similarity` of `mPair`: both rows are `[5]`, so every entry is
exactly 1. -/
def simPair : List (List ℚ) := [[1, 1], [1, 1]]

/-- Two users, two products: `u1` rated `p1`, `u2` rated both. -/
def ratingsW : List Rating := [⟨"u1", "p1", 5⟩, ⟨"u2", "p1", 4⟩, ⟨"u2", "p2", 3⟩]

/-- The pivot of `ratingsW`. -/
def mW : RatingMatrix := ⟨["u1", "u2"], ["p1", "p2"], [[5, 0], [4, 3]]⟩

/-- `cosine_similarity` of `mW`: `cos([5,0],[4,3]) = 20 / (5·5) = 4/5`,
exactly (‖[4,3]‖ = 5). -/
def simW : List (List ℚ) := [[1, 4/5], [4/5, 1]]

/-- Five ratings of one product by five users (enough for the ≥ 5 popularity
cut). -/
def ratingsPop : List Rating :=
  [⟨"u1", "p1", 5⟩, ⟨"u2", "p1", 4⟩, ⟨"u3", "p1", 4⟩, ⟨"u4", "p1", 4⟩, ⟨"u5", "p1", 3⟩]

/-- A single rating. -/
def ratingsSingle : List Rating := [⟨"u1", "p1", 5⟩]

/-- The pivot of `ratingsSingle`. -/
def mSingle : RatingMatrix := ⟨["u1"], ["p1"], [[5]]⟩

/-- Eleven users: `u00` rated only `p0`; `u01`…`u10` rated only `p1`.  Every
one of `u01`…`u10` is orthogonal to `u00`. -/
def ratingsZ : List Rating :=
  [⟨"u00", "p0", 5⟩, ⟨"u01", "p1", 4⟩, ⟨"u02", "p1", 4⟩, ⟨"u03", "p1", 4⟩,
   ⟨"u04", "p1", 4⟩, ⟨"u05", "p1", 4⟩, ⟨"u06", "p1", 4⟩, ⟨"u07", "p1", 4⟩,
   ⟨"u08", "p1", 4⟩, ⟨"u09", "p1", 4⟩, ⟨"u10", "p1", 4⟩]

/-- The pivot of `ratingsZ`. -/
def mZ : RatingMatrix :=
  ⟨["u00", "u01", "u02", "u03", "u04", "u05", "u06", "u07", "u08", "u09", "u10"],
   ["p0", "p1"],
   [[5, 0], [0, 4], [0, 4], [0, 4], [0, 4], [0, 4], [0, 4], [0, 4], [0, 4], [0, 4], [0, 4]]⟩

/-- `cosine_similarity` of `mZ`: row `u00` is orthogonal to every other row
(cosine exactly 0, also in floating point: the dot products are exactly 0);
rows `u01`…`u10` are pairwise identical (cosine exactly 1). -/
def simZ : List (List ℚ) :=
  (1 :: List.replicate 10 0) :: List.replicate 10 ((0 : ℚ) :: List.replicate 10 1)

lemma argsort_perm (a : List ℚ) : (argsort a).Perm (List.range a.length) :=
  List.perm_insertionSort _ _

lemma argsort_sorted (a : List ℚ) : List.Pairwise (ascR a) (argsort a) :=
  List.sorted_insertionSort (ascR a) (List.range a.length)

lemma argsort_reverse_perm (a : List ℚ) :
    ((argsort a).reverse).Perm (List.range a.length) :=
  (List.reverse_perm (argsort a)).trans (argsort_perm a)

lemma argsort_reverse_sorted (a : List ℚ) :
    List.Pairwise (descR a) ((argsort a).reverse) := by
  rw [List.pairwise_reverse]
  exact argsort_sorted a

lemma argsort_reverse_nodup (a : List ℚ) : ((argsort a).reverse).Nodup :=
  ((argsort_reverse_perm a).symm).nodup (List.nodup_range a.length)

lemma argsort_reverse_mem (a : List ℚ) (i : ℕ) :
    i ∈ (argsort a).reverse ↔ i < a.length := by
  rw [(argsort_reverse_perm a).mem_iff, List.mem_range]

/-- What `selectTop` does when one index (`uidx`, in practice the queried user
or product itself, whose self-similarity is `1`) has a *strictly* largest
value: it is dropped by the `[1:]` slice, the selected indices are sorted by
descending value with ties by *descending* index, they dominate every
non-selected other index, and exactly `min k (a.length - 1)` of them are
returned. -/
lemma selectTop_spec (a : List ℚ) (k uidx : ℕ) (hu : uidx < a.length)
    (hmax : ∀ j, j < a.length → j ≠ uidx → a.getD j 0 < a.getD uidx 0) :
    uidx ∉ selectTop a k ∧
    List.Pairwise (descR a) (selectTop a k) ∧
    (∀ i ∈ selectTop a k, i < a.length ∧ i ≠ uidx) ∧
    (∀ i ∈ selectTop a k, ∀ j, j < a.length → j ∉ selectTop a k → j ≠ uidx →
      a.getD j 0 ≤ a.getD i 0) ∧
    (selectTop a k).length = min k (a.length - 1) := by
  have hperm := argsort_reverse_perm a
  have hsort := argsort_reverse_sorted a
  have hnodup := argsort_reverse_nodup a
  have hlen : (argsort a).reverse.length = a.length := hperm.length_eq.trans (List.length_range _)
  -- the reversed argsort is nonempty and must start with `uidx`
  obtain ⟨h, T, hLT⟩ : ∃ h T, (argsort a).reverse = h :: T := by
    cases hL : (argsort a).reverse with
    | nil => rw [hL] at hlen; simp only [List.length_nil] at hlen; omega
    | cons h T => exact ⟨h, T, rfl⟩
  have hhead : h = uidx := by
    by_contra hne
    have huL : uidx ∈ (argsort a).reverse := (argsort_reverse_mem a uidx).2 hu
    rw [hLT] at huL
    have huT : uidx ∈ T := by
      rcases List.mem_cons.1 huL with h1 | h1
      · exact absurd h1.symm hne
      · exact h1
    have hhL : h ∈ (argsort a).reverse := by rw [hLT]; exact List.mem_cons_self _ _
    have hhlt : h < a.length := (argsort_reverse_mem a h).1 hhL
    have hstrict : a.getD h 0 < a.getD uidx 0 := hmax h hhlt hne
    rw [hLT] at hsort
    have hrel : descR a h uidx := (List.pairwise_cons.1 hsort).1 uidx huT
    rcases hrel with hlt | ⟨heq, _⟩
    · exact absurd hstrict (lt_asymm hlt)
    · rw [heq] at hstrict; exact absurd hstrict (lt_irrefl _)
  subst hhead
  have hsel : selectTop a k = T.take k := by
    unfold selectTop; rw [hLT]; rfl
  have hTsub : T.Sublist ((argsort a).reverse) := by
    rw [hLT]; exact List.sublist_cons_self _ _
  have hselSubT : (T.take k).Sublist T := List.take_sublist _ _
  have hselSub : (selectTop a k).Sublist ((argsort a).reverse) := by
    rw [hsel]; exact hselSubT.trans hTsub
  rw [hLT] at hnodup hsort
  have hhT : h ∉ T := (List.nodup_cons.1 hnodup).1
  have hTnodup : T.Nodup := (List.nodup_cons.1 hnodup).2
  have hTsort : List.Pairwise (descR a) T := (List.pairwise_cons.1 hsort).2
  refine ⟨?_, ?_, ?_, ?_, ?_⟩
  · rw [hsel]
    intro hmem
    exact hhT ((List.take_sublist _ _).subset hmem)
  · exact List.Pairwise.sublist hselSub (argsort_reverse_sorted a)
  · intro i hi
    have hiL : i ∈ (argsort a).reverse := hselSub.subset hi
    refine ⟨(argsort_reverse_mem a i).1 hiL, ?_⟩
    intro hieq
    subst hieq
    rw [hsel] at hi
    exact hhT (hselSubT.subset hi)
  · intro i hi j hjlen hjnot hjne
    have hjL : j ∈ (argsort a).reverse := (argsort_reverse_mem a j).2 hjlen
    rw [hLT] at hjL
    have hjT : j ∈ T := by
      rcases List.mem_cons.1 hjL with h1 | h1
      · exact absurd h1 hjne
      · exact h1
    have hjdrop : j ∈ T.drop k := by
      have := List.take_append_drop k T
      rcases (List.mem_append.1 (by rw [this]; exact hjT)) with h1 | h1
      · exact absurd (by rw [hsel]; exact h1) hjnot
      · exact h1
    have hpw : List.Pairwise (descR a) (T.take k ++ T.drop k) := by
      rw [List.take_append_drop]; exact hTsort
    have hrel : descR a i j := by
      rcases List.pairwise_append.1 hpw with ⟨_, _, hcross⟩
      exact hcross i (by rw [hsel] at hi; exact hi) j hjdrop
    rcases hrel with hlt | ⟨heq, _⟩
    · exact le_of_lt hlt
    · exact le_of_eq heq
  · rw [hsel, List.length_take]
    have : T.length = a.length - 1 := by
      rw [hLT] at hlen
      simp only [List.length_cons] at hlen
      omega
    rw [this]

lemma get_loc_some {l : List String} {x : String} {i : ℕ}
    (h : get_loc l x = some i) : i < l.length ∧ l.getD i "" = x := by
  induction l generalizing i with
  | nil => simp [get_loc] at h
  | cons a l ih =>
    by_cases hax : a = x
    · simp only [get_loc, if_pos hax] at h
      cases h
      simpa using hax
    · simp only [get_loc, if_neg hax] at h
      cases hloc : get_loc l x with
      | none => rw [hloc] at h; simp at h
      | some i' =>
        rw [hloc] at h
        simp only [Option.map_some'] at h
        cases h
        obtain ⟨h1, h2⟩ := ih hloc
        constructor
        · simpa using Nat.succ_lt_succ h1
        · simpa using h2

lemma get_loc_eq_none {l : List String} {x : String} :
    get_loc l x = none ↔ x ∉ l := by
  induction l with
  | nil => simp [get_loc]
  | cons a l ih =>
    by_cases hax : a = x
    · simp [get_loc, hax]
    · cases hloc : get_loc l x with
      | none =>
        simp only [get_loc, if_neg hax, hloc, Option.map_none', true_iff, List.mem_cons]
        push_neg
        exact ⟨fun h => hax h.symm, ih.1 hloc⟩
      | some i =>
        simp only [get_loc, if_neg hax, hloc, Option.map_some', List.mem_cons]
        constructor
        · intro h; simp at h
        · intro h
          exfalso
          rcases (not_or.1 h) with ⟨_, hnot⟩
          rw [← ih] at hnot
          rw [hloc] at hnot
          simp at hnot

lemma get_loc_isSome_of_mem {l : List String} {x : String} (h : x ∈ l) :
    ∃ i, get_loc l x = some i := by
  cases hloc : get_loc l x with
  | none => exact absurd h (get_loc_eq_none.1 hloc)
  | some i => exact ⟨i, rfl⟩

lemma nodup_getD_inj {l : List String} (h : l.Nodup) {i j : ℕ}
    (hi : i < l.length) (hj : j < l.length) (hij : l.getD i "" = l.getD j "") :
    i = j := by
  rw [List.getD_eq_getElem _ _ hi, List.getD_eq_getElem _ _ hj] at hij
  exact (List.Nodup.getElem_inj_iff h).1 hij

lemma cell_nonneg {m : RatingMatrix} (hnn : ∀ row ∈ m.rows, ∀ x ∈ row, 0 ≤ x)
    (i j : ℕ) : 0 ≤ (rowOf m i).getD j 0 := by
  unfold rowOf
  by_cases hi : i < m.rows.length
  · have hrow : m.rows.getD i [] ∈ m.rows := by
      rw [List.getD_eq_getElem _ _ hi]; exact List.getElem_mem hi
    by_cases hj : j < (m.rows.getD i []).length
    · have hx : (m.rows.getD i []).getD j 0 ∈ m.rows.getD i [] := by
        rw [List.getD_eq_getElem _ _ hj]; exact List.getElem_mem hj
      exact hnn _ hrow _ hx
    · rw [List.getD_eq_default _ _ (Nat.le_of_not_lt hj)]
  · rw [List.getD_eq_default _ _ (Nat.le_of_not_lt hi)]
    simp

lemma exists_ne_zero_of_sum_pos {l : List ℚ} (h : 0 < l.sum) :
    ∃ x ∈ l, x ≠ 0 := by
  by_contra hall
  push_neg at hall
  rw [List.sum_eq_zero hall] at h
  exact lt_irrefl _ h

lemma sum_pos_of_mem_pos {l : List ℚ} (hnn : ∀ x ∈ l, 0 ≤ x) {x : ℚ}
    (hx : x ∈ l) (hxne : x ≠ 0) : 0 < l.sum :=
  lt_of_lt_of_le (lt_of_le_of_ne (hnn x hx) (Ne.symm hxne)) (List.single_le_sum hnn x hx)

lemma predLoop_ok_eq {m : RatingMatrix} {nb : List ℕ} {simRow : List ℚ}
    {js : List ℕ} {preds : List Prediction}
    (h : predLoop m nb simRow js = Except.ok preds) :
    preds = js.filterMap (fun j =>
      if 0 < (neighborRatings m nb j).sum then some (mkPrediction m simRow nb j)
      else none) := by
  induction js generalizing preds with
  | nil =>
    simp only [predLoop] at h
    cases h
    simp
  | cons j rest ih =>
    by_cases h0 : 0 < (neighborRatings m nb j).sum
    · simp only [predLoop, if_pos h0] at h
      by_cases hw : (nbWeights simRow nb).sum = 0
      · simp only [npAverage, if_pos hw] at h
        exact absurd h (by simp)
      · simp only [npAverage, if_neg hw] at h
        cases hrest : predLoop m nb simRow rest with
        | error e => rw [hrest] at h; simp [Except.map] at h
        | ok ps =>
          rw [hrest] at h
          simp only [Except.map] at h
          cases h
          simp only [List.filterMap_cons, if_pos h0]
          rw [← ih hrest]
          rfl
    · simp only [predLoop, if_neg h0] at h
      simp only [List.filterMap_cons, if_neg h0]
      exact ih h

lemma sortedDedup_mem (l : List String) (x : String) :
    x ∈ sortedDedup l ↔ x ∈ l :=
  (List.perm_insertionSort _ _).mem_iff.trans List.mem_dedup

lemma sortedDedup_nodup (l : List String) : (sortedDedup l).Nodup :=
  ((List.perm_insertionSort _ _).symm).nodup (List.nodup_dedup l)

lemma mem_unratedIdxs {userRow : List ℚ} {j : ℕ} :
    j ∈ unratedIdxs userRow ↔ j < userRow.length ∧ userRow.getD j 0 = 0 := by
  unfold unratedIdxs
  simp [List.mem_filter, List.mem_range]

lemma rowOf_mem_rows {m : RatingMatrix} {uidx : ℕ} (h : uidx < m.rows.length) :
    rowOf m uidx ∈ m.rows := by
  unfold rowOf
  rw [List.getD_eq_getElem _ _ h]
  exact List.getElem_mem h

lemma rowOf_length {m : RatingMatrix} (hWF : m.WF) {uidx : ℕ}
    (h : uidx < m.rowIds.length) : (rowOf m uidx).length = m.colIds.length := by
  have hlt : uidx < m.rows.length := by rw [hWF.1]; exact h
  exact hWF.2.1 _ (rowOf_mem_rows hlt)

/-- C9, counterexample.  The claim says pivoting an empty rating sequence
fails with `EmptyDatasetError`; the code does not fail: pandas pivots an
empty frame to an empty frame (`DataProcessor.get_user_product_matrix` even
returns an empty `DataFrame` directly when nothing was loaded), and
`initialize_matrices` then merely prints a warning.  The build of `[]`
returns the empty matrix, not an error. -/
theorem c9_counterexample :
    get_user_product_matrix [] = Except.ok ⟨[], [], []⟩ := rfl

/-- C9 (amended): building the matrix from the empty rating sequence does not
fail; it succeeds and produces the empty matrix (no rows, no columns). -/
theorem c9_empty_build_succeeds :
    ∃ m, get_user_product_matrix [] = Except.ok m ∧
      m.rowIds = [] ∧ m.colIds = [] ∧ m.rows = [] :=
  ⟨⟨[], [], []⟩, rfl, rfl, rfl, rfl⟩

/-- C8, counterexample.  The claim says `similar(productId, n)` fails with
`UnknownProductError` for a productId absent from the catalog; the code
instead checks `len(product_idx) == 0` and returns `[]`.  Here the catalog is
`["p1"]` and the queried id `"zzz"` is absent: the call returns the empty
list rather than failing. -/
theorem c8_counterexample :
    get_product_similarity ["p1"] [1] "zzz" 5 = [] := rfl

/-- C8 (amended): for every productId absent from the catalog,
`get_product_similarity` returns the empty list (it does not raise). -/
theorem c8_absent_product_returns_empty (products : List String)
    (scores : List ℚ) (productId : String) (nSimilar : ℕ)
    (h : productId ∉ products) :
    get_product_similarity products scores productId nSimilar = [] := by
  rw [get_product_similarity]
  rw [show get_loc products productId = none from get_loc_eq_none.2 h]

theorem c8_witness :
    ("c" ∉ ["a", "b"]) ∧ get_product_similarity ["a", "b"] [1, 1] "c" 5 = [] :=
  ⟨by decide, c8_absent_product_returns_empty ["a", "b"] [1, 1] "c" 5 (by decide)⟩

/-- C7, counterexample.  The claim says `history(userId)` fails with
`UnknownUserError` for a userId absent from the matrix;
`Recommender.get_user_history` instead catches the `KeyError` from
`.loc[user_id]` and returns `[]`.  `"nouser"` is absent from `mPair`'s rows,
and the call returns the empty list rather than failing. -/
theorem c7_counterexample :
    ("nouser" ∉ mPair.rowIds) ∧ get_user_history mPair "nouser" = [] :=
  ⟨by decide, rfl⟩

/-- C7 (amended): for an absent userId, `get_user_history` returns `[]`
instead of failing; for a present userId (row index `uidx`) it returns
exactly the non-sentinel cells of that user's row, paired with their
productIds, in product column order. -/
theorem c7_history_cells (m : RatingMatrix) (userId : String)
    (hWF : m.WF)
    (hval : ∀ row ∈ m.rows, ∀ x ∈ row, x = 0 ∨ (1 ≤ x ∧ x ≤ 5)) :
    (userId ∉ m.rowIds → get_user_history m userId = []) ∧
    (∀ uidx, get_loc m.rowIds userId = some uidx →
      get_user_history m userId =
        (m.colIds.zip (rowOf m uidx)).filter (fun x => x.2 ≠ 0)) := by
  constructor
  · intro h
    rw [get_user_history]
    rw [show get_loc m.rowIds userId = none from get_loc_eq_none.2 h]
  · intro uidx huidx
    rw [get_user_history, huidx]
    apply List.filter_congr
    intro x hx
    have hx2 : x.2 ∈ rowOf m uidx := (List.of_mem_zip hx).2
    have hrow : rowOf m uidx ∈ m.rows := by
      apply rowOf_mem_rows
      rw [hWF.1]
      exact (get_loc_some huidx).1
    rcases hval _ hrow _ hx2 with h0 | ⟨h1, _⟩
    · simp [h0]
    · have hpos : 0 < x.2 := lt_of_lt_of_le one_pos h1
      simp [hpos, ne_of_gt hpos]

theorem c7_witness :
    mPair.WF ∧
    (∀ row ∈ mPair.rows, ∀ x ∈ row, x = 0 ∨ (1 ≤ x ∧ x ≤ 5)) ∧
    (("nouser2" ∉ mPair.rowIds → get_user_history mPair "nouser2" = []) ∧
     (∀ uidx, get_loc mPair.rowIds "nouser2" = some uidx →
       get_user_history mPair "nouser2" =
         (mPair.colIds.zip (rowOf mPair uidx)).filter (fun x => x.2 ≠ 0))) :=
  ⟨by decide, by decide, c7_history_cells mPair "nouser2" (by decide) (by decide)⟩

/-- C5 (confirmed): if every input rating value lies in `[1,5]` and the pivot
succeeds, every cell of the built matrix is either the sentinel `0` or a
value in `[1,5]`, and the row (column) ids are exactly the distinct userIds
(productIds) observed in the input. -/
theorem c5_matrix_cells_and_ids (ratings : List Rating) (m : RatingMatrix)
    (hval : ∀ r ∈ ratings, 1 ≤ r.rating ∧ r.rating ≤ 5)
    (hok : get_user_product_matrix ratings = Except.ok m) :
    (∀ row ∈ m.rows, ∀ x ∈ row, x = 0 ∨ (1 ≤ x ∧ x ≤ 5)) ∧
    (∀ u, u ∈ m.rowIds ↔ u ∈ ratings.map (fun r => r.userId)) ∧
    (∀ p, p ∈ m.colIds ↔ p ∈ ratings.map (fun r => r.productId)) := by
  rw [get_user_product_matrix] at hok
  by_cases hnd : (ratings.map (fun r => (r.userId, r.productId))).Nodup
  · rw [if_pos hnd] at hok
    injection hok with hok
    subst hok
    refine ⟨?_, ?_, ?_⟩
    · intro row hrow x hx
      simp only at hrow
      rw [List.mem_map] at hrow
      obtain ⟨u, _, hrow⟩ := hrow
      subst hrow
      rw [List.mem_map] at hx
      obtain ⟨p, _, hx⟩ := hx
      subst hx
      cases hfind : ratings.find? (fun r => r.userId == u && r.productId == p) with
      | none => exact Or.inl rfl
      | some r => exact Or.inr (hval r (List.mem_of_find?_eq_some hfind))
    · intro u
      exact sortedDedup_mem _ u
    · intro p
      exact sortedDedup_mem _ p
  · rw [if_neg hnd] at hok
    cases hok

theorem c5_witness :
    (∀ r ∈ ratingsSingle, 1 ≤ r.rating ∧ r.rating ≤ 5) ∧
    ((∀ row ∈ mSingle.rows, ∀ x ∈ row, x = 0 ∨ (1 ≤ x ∧ x ≤ 5)) ∧
     (∀ u, u ∈ mSingle.rowIds ↔ u ∈ ratingsSingle.map (fun r => r.userId)) ∧
     (∀ p, p ∈ mSingle.colIds ↔ p ∈ ratingsSingle.map (fun r => r.productId))) :=
  ⟨by decide, c5_matrix_cells_and_ids ratingsSingle mSingle (by decide) rfl⟩

/-- C6, counterexample.  The claim says `similar(productId, n)` never
contains `productId` itself.  Take a catalog of two products with identical
text (`"p1"`, `"p2"`): their TF-IDF vectors are bitwise identical, so the
cosine row of `"p1"` is `[1, 1]` (exact, also in floating point: the self
similarity and the twin similarity are the same computation on equal
vectors).  The stable argsort gives `[0, 1]`, reversal `[1, 0]`, and the
`[1:n+1]` slice drops the *twin* and keeps index 0 — the result contains
`"p1"` itself. -/
theorem c6_counterexample :
    get_loc ["p1", "p2"] "p1" = some 0 ∧
    get_product_similarity ["p1", "p2"] [1, 1] "p1" 5 = [("p1", 1)] :=
  ⟨rfl, by decide⟩

lemma selectTop_sorted (a : List ℚ) (k : ℕ) :
    List.Pairwise (descR a) (selectTop a k) := by
  have hsub : (selectTop a k).Sublist ((argsort a).reverse) :=
    (List.take_sublist _ _).trans (List.drop_sublist _ _)
  exact List.Pairwise.sublist hsub (argsort_reverse_sorted a)

/-- C6 (amended): the result of `get_product_similarity` is *always* sorted
descending by score — with no hypothesis at all, since it maps over a
take/drop of the descending-sorted reversed argsort; and it never contains
the queried product *provided* the target's self-similarity is strictly
greater than its similarity to every other catalog index (with exact ties —
e.g. duplicate product texts — the product itself can survive the `[1:]`
slice, as the counterexample shows). -/
theorem c6_similar_excludes_self_sorted (products : List String)
    (scores : List ℚ) (productId : String) (nSimilar : ℕ) :
    List.Pairwise (fun x y : String × ℚ => y.2 ≤ x.2)
      (get_product_similarity products scores productId nSimilar) ∧
    (∀ idx, products.Nodup → scores.length = products.length →
      get_loc products productId = some idx →
      (∀ j, j < scores.length → j ≠ idx →
        scores.getD j 0 < scores.getD idx 0) →
      ∀ x ∈ get_product_similarity products scores productId nSimilar,
        x.1 ≠ productId) := by
  constructor
  · rw [get_product_similarity]
    cases hloc : get_loc products productId with
    | none => exact List.Pairwise.nil
    | some idx =>
      rw [List.pairwise_map]
      apply List.Pairwise.imp ?_ (selectTop_sorted scores nSimilar)
      intro i j hij
      rcases hij with hlt | ⟨heq', _⟩
      · exact le_of_lt hlt
      · exact le_of_eq heq'
  · intro idx hnodup hlen hloc hmax x hx
    obtain ⟨hidx, hgetd⟩ := get_loc_some hloc
    have hidx' : idx < scores.length := by rw [hlen]; exact hidx
    obtain ⟨hnot, hsort, hbounds, hdom, hlen'⟩ :=
      selectTop_spec scores nSimilar idx hidx' hmax
    rw [get_product_similarity, hloc] at hx
    rw [List.mem_map] at hx
    obtain ⟨i, hi, hxi⟩ := hx
    subst hxi
    obtain ⟨hilen, hine⟩ := hbounds i hi
    intro heq
    apply hine
    apply nodup_getD_inj hnodup (by rw [← hlen]; exact hilen) hidx
    rw [hgetd]
    exact heq

theorem c6_witness :
    List.Pairwise (fun x y : String × ℚ => y.2 ≤ x.2)
      (get_product_similarity ["a", "b", "c"] [1, 1/2, 3/4] "a" 5) ∧
    (["a", "b", "c"] : List String).Nodup ∧
    ([1, 1/2, 3/4] : List ℚ).length = (["a", "b", "c"] : List String).length ∧
    get_loc ["a", "b", "c"] "a" = some 0 ∧
    (∀ j, j < ([1, 1/2, 3/4] : List ℚ).length → j ≠ 0 →
      ([1, 1/2, 3/4] : List ℚ).getD j 0 < ([1, 1/2, 3/4] : List ℚ).getD 0 0) ∧
    (∀ x ∈ get_product_similarity ["a", "b", "c"] [1, 1/2, 3/4] "a" 5,
      x.1 ≠ "a") :=
  ⟨(c6_similar_excludes_self_sorted ["a", "b", "c"] [1, 1/2, 3/4] "a" 5).1,
   by decide, by decide, rfl, by decide,
   (c6_similar_excludes_self_sorted ["a", "b", "c"] [1, 1/2, 3/4] "a" 5).2 0
     (by decide) (by decide) rfl (by decide)⟩

/-- C3, counterexample.  The claim says the neighbor set always excludes the
user and breaks similarity ties by stable original row order.  Both fail:
with two identical users (`ratingsPair`, rows `[5]` and `[5]`, cosine matrix
all ones) the user `"u1"` (row index 0) appears in its own neighbor set —
the `[1:11]` slice drops the twin, not the user.  And with similarity row
`[1, 1/2, 1/2]` and `k = 1` the selected neighbor is index 2, not the
stable-order index 1: the reversed argsort breaks ties by *descending* row
index. -/
theorem c3_counterexample :
    get_user_product_matrix ratingsPair = Except.ok mPair ∧
    get_loc mPair.rowIds "u1" = some 0 ∧
    (0 ∈ neighborsUsed mPair simPair "u1") ∧
    selectTop [1, 1/2, 1/2] 1 = [2] :=
  ⟨rfl, rfl, by decide, by decide⟩

/-- C3 (amended): when the user's self-similarity is *strictly* greater than
its similarity to every other row, the neighbor set consists of (at most) the
k = 10 highest-similarity other rows, excludes the user, and is ordered by
descending similarity with ties broken by *descending* (not stable original)
row order. -/
theorem c3_neighbor_selection (m : RatingMatrix) (simM : List (List ℚ))
    (userId : String) (uidx : ℕ)
    (huser : get_loc m.rowIds userId = some uidx)
    (hu : uidx < (simM.getD uidx []).length)
    (hmax : ∀ j, j < (simM.getD uidx []).length → j ≠ uidx →
      (simM.getD uidx []).getD j 0 < (simM.getD uidx []).getD uidx 0) :
    uidx ∉ neighborsUsed m simM userId ∧
    List.Pairwise (descR (simM.getD uidx [])) (neighborsUsed m simM userId) ∧
    (∀ i ∈ neighborsUsed m simM userId,
      i < (simM.getD uidx []).length ∧ i ≠ uidx) ∧
    (∀ i ∈ neighborsUsed m simM userId, ∀ j,
      j < (simM.getD uidx []).length → j ∉ neighborsUsed m simM userId →
      j ≠ uidx →
      (simM.getD uidx []).getD j 0 ≤ (simM.getD uidx []).getD i 0) ∧
    (neighborsUsed m simM userId).length =
      min 10 ((simM.getD uidx []).length - 1) := by
  have hsel : neighborsUsed m simM userId = selectTop (simM.getD uidx []) 10 := by
    rw [neighborsUsed, huser]
  rw [hsel]
  exact selectTop_spec _ 10 uidx hu hmax

theorem c3_witness :
    get_loc mW.rowIds "u1" = some 0 ∧
    (0 < (simW.getD 0 []).length) ∧
    (∀ j, j < (simW.getD 0 []).length → j ≠ 0 →
      (simW.getD 0 []).getD j 0 < (simW.getD 0 []).getD 0 0) ∧
    (0 ∉ neighborsUsed mW simW "u1" ∧
     List.Pairwise (descR (simW.getD 0 [])) (neighborsUsed mW simW "u1") ∧
     (∀ i ∈ neighborsUsed mW simW "u1",
       i < (simW.getD 0 []).length ∧ i ≠ 0) ∧
     (∀ i ∈ neighborsUsed mW simW "u1", ∀ j,
       j < (simW.getD 0 []).length → j ∉ neighborsUsed mW simW "u1" →
       j ≠ 0 →
       (simW.getD 0 []).getD j 0 ≤ (simW.getD 0 []).getD i 0) ∧
     (neighborsUsed mW simW "u1").length =
       min 10 ((simW.getD 0 []).length - 1)) :=
  ⟨rfl, by decide, by decide,
   c3_neighbor_selection mW simW "u1" 0 rfl (by decide) (by decide)⟩

/-- C1 (confirmed): for a userId absent from the matrix the slack
`get_recommendations_for_user` does not fail — it takes the cold-start
branch and returns only products with at least 5 ratings, each paired with
its mean rating, sorted descending by mean, truncated to the top 10.
(`Recommender.get_recommendations` likewise does not fail for an unknown
user: the `KeyError` is caught and `[]` returned; the popularity fallback
lives in the slack layer.) -/
theorem c1_cold_start_popularity (allRatings : List Rating) (m : RatingMatrix)
    (simM : List (List ℚ)) (userId : String)
    (h : userId ∉ m.rowIds) :
    (∀ x ∈ get_recommendations_for_user allRatings m simM userId,
      5 ≤ ratingCount allRatings x.1 ∧
      x.2 = ratingSum allRatings x.1 / (ratingCount allRatings x.1 : ℚ)) ∧
    List.Pairwise bySndDesc (get_recommendations_for_user allRatings m simM userId) ∧
    (get_recommendations_for_user allRatings m simM userId).length ≤ 10 := by
  rw [get_recommendations_for_user, if_neg h]
  refine ⟨?_, ?_, ?_⟩
  · intro x hx
    have hx1 : x ∈ popularProducts allRatings := (List.take_sublist _ _).subset hx
    rw [popularProducts] at hx1
    have hx2 := (List.mem_insertionSort _).1 hx1
    rw [List.mem_filterMap] at hx2
    obtain ⟨pid, _, hsome⟩ := hx2
    by_cases hc : 5 ≤ ratingCount allRatings pid
    · rw [if_pos hc] at hsome
      injection hsome with hsome
      subst hsome
      exact ⟨hc, rfl⟩
    · rw [if_neg hc] at hsome
      cases hsome
  · apply List.Pairwise.sublist (List.take_sublist _ _)
    rw [popularProducts]
    exact List.sorted_insertionSort bySndDesc _
  · exact List.length_take_le _ _

theorem c1_witness :
    ("newuser" ∉ mW.rowIds) ∧
    ((∀ x ∈ get_recommendations_for_user ratingsPop mW [] "newuser",
       5 ≤ ratingCount ratingsPop x.1 ∧
       x.2 = ratingSum ratingsPop x.1 / (ratingCount ratingsPop x.1 : ℚ)) ∧
     List.Pairwise bySndDesc (get_recommendations_for_user ratingsPop mW [] "newuser") ∧
     (get_recommendations_for_user ratingsPop mW [] "newuser").length ≤ 10) :=
  ⟨by decide, c1_cold_start_popularity ratingsPop mW [] "newuser" (by decide)⟩

/-- C4 (confirmed): whenever `get_recommendations` returns a list for a known
user, every returned product names a column whose cell in that user's row is
the sentinel `0` — no product the user already rated (non-zero cell) is ever
returned.  (For a sentinel-free claim the matrix must be well-formed, which
every pivot output is.) -/
lemma get_recommendations_known {m : RatingMatrix} {simM : List (List ℚ)}
    {userId : String} {uidx nRecs : ℕ}
    (huser : get_loc m.rowIds userId = some uidx) :
    get_recommendations m simM userId nRecs =
      (predictionsOf m simM uidx).map
        (fun preds => (List.insertionSort byScoreDesc preds).take nRecs) := by
  rw [get_recommendations, huser]

theorem c4_only_unrated_returned (m : RatingMatrix) (simM : List (List ℚ))
    (userId : String) (nRecs : ℕ) (uidx : ℕ) (preds : List Prediction)
    (hWF : m.WF)
    (huser : get_loc m.rowIds userId = some uidx)
    (hok : get_recommendations m simM userId nRecs = Except.ok preds) :
    ∀ pr ∈ preds, ∀ j, j < m.colIds.length →
      m.colIds.getD j "" = pr.product_id → (rowOf m uidx).getD j 0 = 0 := by
  rw [get_recommendations_known huser] at hok
  cases hpo : predictionsOf m simM uidx with
  | error e =>
    rw [hpo] at hok
    exact absurd hok (by simp [Except.map])
  | ok ps =>
    rw [hpo] at hok
    simp only [Except.map] at hok
    injection hok with hok
    subst hok
    intro pr hpr j hj hname
    have hpr1 : pr ∈ List.insertionSort byScoreDesc ps :=
      (List.take_sublist _ _).subset hpr
    have hpr2 : pr ∈ ps := (List.mem_insertionSort _).1 hpr1
    rw [predictionsOf] at hpo
    rw [predLoop_ok_eq hpo] at hpr2
    rw [List.mem_filterMap] at hpr2
    obtain ⟨j', hj', hsome⟩ := hpr2
    by_cases h0 : 0 < (neighborRatings m (selectTop (simM.getD uidx []) 10) j').sum
    · rw [if_pos h0] at hsome
      injection hsome with hsome
      subst hsome
      obtain ⟨hj'len, hj'0⟩ := mem_unratedIdxs.1 hj'
      have hj'c : j' < m.colIds.length := by
        rw [← rowOf_length hWF (get_loc_some huser).1]
        exact hj'len
      have hjj : j = j' :=
        nodup_getD_inj hWF.2.2.1 hj hj'c (by rw [hname]; rfl)
      rw [hjj]
      exact hj'0
    · rw [if_neg h0] at hsome
      cases hsome

theorem c4_witness :
    mW.WF ∧
    get_loc mW.rowIds "u1" = some 0 ∧
    get_recommendations mW simW "u1" 5 =
      Except.ok [⟨"p2", 3, "Recommended based on similar users' preferences"⟩] ∧
    (∀ pr ∈ [(⟨"p2", 3, "Recommended based on similar users' preferences"⟩ : Prediction)],
      ∀ j, j < mW.colIds.length →
      mW.colIds.getD j "" = pr.product_id → (rowOf mW 0).getD j 0 = 0) :=
  ⟨by decide, rfl, rfl,
   c4_only_unrated_returned mW simW "u1" 5 0
     [⟨"p2", 3, "Recommended based on similar users' preferences"⟩]
     (by decide) rfl rfl⟩

/-- C2 (confirmed): for a known user (row `uidx`) and a candidate column `j`
the user has not rated, the prediction list contains an entry for that
product if and only if some selected neighbor has a non-sentinel (non-zero)
rating for it; and the entry's score is the similarity-weighted average
`Σ wᵢ·ratingᵢ / Σ wᵢ` over *all* selected neighbors — sentinel zeros enter
both the numerator and the averaged rating list.  (Cells are non-negative in
every real matrix: ratings lie in `[1,5]` and the sentinel is `0`.) -/
theorem c2_weighted_prediction (m : RatingMatrix) (simM : List (List ℚ))
    (userId : String) (uidx : ℕ) (preds : List Prediction) (j : ℕ)
    (hWF : m.WF)
    (hnn : ∀ row ∈ m.rows, ∀ x ∈ row, 0 ≤ x)
    (huser : get_loc m.rowIds userId = some uidx)
    (hok : predictionsOf m simM uidx = Except.ok preds)
    (hj : j ∈ unratedIdxs (rowOf m uidx)) :
    ((∃ pr ∈ preds, pr.product_id = m.colIds.getD j "") ↔
      (∃ i ∈ selectTop (simM.getD uidx []) 10, (rowOf m i).getD j 0 ≠ 0)) ∧
    (∀ pr ∈ preds, pr.product_id = m.colIds.getD j "" →
      pr.score =
        (List.zipWith (fun w v => w * v)
          (nbWeights (simM.getD uidx []) (selectTop (simM.getD uidx []) 10))
          (neighborRatings m (selectTop (simM.getD uidx []) 10) j)).sum /
        (nbWeights (simM.getD uidx []) (selectTop (simM.getD uidx []) 10)).sum) := by
  rw [predictionsOf] at hok
  have hps := predLoop_ok_eq hok
  subst hps
  have hcol : ∀ j1, j1 ∈ unratedIdxs (rowOf m uidx) → j1 < m.colIds.length := by
    intro j1 hj1
    rw [← rowOf_length hWF (get_loc_some huser).1]
    exact (mem_unratedIdxs.1 hj1).1
  have hnr : ∀ j1, ∀ x ∈ neighborRatings m (selectTop (simM.getD uidx []) 10) j1, 0 ≤ x := by
    intro j1 x hx
    rw [neighborRatings, List.mem_map] at hx
    obtain ⟨i, _, hxi⟩ := hx
    subst hxi
    exact cell_nonneg hnn i j1
  constructor
  · constructor
    · rintro ⟨pr, hpr, hname⟩
      rw [List.mem_filterMap] at hpr
      obtain ⟨j', hj', hsome⟩ := hpr
      by_cases h0 : 0 < (neighborRatings m (selectTop (simM.getD uidx []) 10) j').sum
      · rw [if_pos h0] at hsome
        injection hsome with hsome
        subst hsome
        have hjj : j' = j :=
          nodup_getD_inj hWF.2.2.1 (hcol j' hj') (hcol j hj) hname
        subst hjj
        obtain ⟨x, hx, hxne⟩ := exists_ne_zero_of_sum_pos h0
        rw [neighborRatings, List.mem_map] at hx
        obtain ⟨i, hi, hxi⟩ := hx
        subst hxi
        exact ⟨i, hi, hxne⟩
      · rw [if_neg h0] at hsome
        cases hsome
    · rintro ⟨i, hi, hne⟩
      have hx : (rowOf m i).getD j 0 ∈
          neighborRatings m (selectTop (simM.getD uidx []) 10) j := by
        rw [neighborRatings, List.mem_map]
        exact ⟨i, hi, rfl⟩
      have h0 : 0 < (neighborRatings m (selectTop (simM.getD uidx []) 10) j).sum :=
        sum_pos_of_mem_pos (hnr j) hx hne
      refine ⟨mkPrediction m (simM.getD uidx []) (selectTop (simM.getD uidx []) 10) j, ?_, rfl⟩
      rw [List.mem_filterMap]
      exact ⟨j, hj, by rw [if_pos h0]⟩
  · intro pr hpr hname
    rw [List.mem_filterMap] at hpr
    obtain ⟨j', hj', hsome⟩ := hpr
    by_cases h0 : 0 < (neighborRatings m (selectTop (simM.getD uidx []) 10) j').sum
    · rw [if_pos h0] at hsome
      injection hsome with hsome
      subst hsome
      have hjj : j' = j :=
        nodup_getD_inj hWF.2.2.1 (hcol j' hj') (hcol j hj) hname
      subst hjj
      rfl
    · rw [if_neg h0] at hsome
      cases hsome

theorem c2_witness :
    mW.WF ∧
    (∀ row ∈ mW.rows, ∀ x ∈ row, 0 ≤ x) ∧
    get_loc mW.rowIds "u1" = some 0 ∧
    predictionsOf mW simW 0 =
      Except.ok [⟨"p2", 3, "Recommended based on similar users' preferences"⟩] ∧
    (1 ∈ unratedIdxs (rowOf mW 0)) ∧
    (((∃ pr ∈ [(⟨"p2", 3, "Recommended based on similar users' preferences"⟩ : Prediction)],
        pr.product_id = mW.colIds.getD 1 "") ↔
       (∃ i ∈ selectTop (simW.getD 0 []) 10, (rowOf mW i).getD 1 0 ≠ 0)) ∧
     (∀ pr ∈ [(⟨"p2", 3, "Recommended based on similar users' preferences"⟩ : Prediction)],
       pr.product_id = mW.colIds.getD 1 "" →
       pr.score =
         (List.zipWith (fun w v => w * v)
           (nbWeights (simW.getD 0 []) (selectTop (simW.getD 0 []) 10))
           (neighborRatings mW (selectTop (simW.getD 0 []) 10) 1)).sum /
         (nbWeights (simW.getD 0 []) (selectTop (simW.getD 0 []) 10)).sum)) :=
  ⟨by decide, by decide, rfl, rfl, by decide,
   c2_weighted_prediction mW simW "u1" 0
     [⟨"p2", 3, "Recommended based on similar users' preferences"⟩] 1
     (by decide) (by decide) rfl rfl (by decide)⟩

/-- C10 (confirmed): a concrete input on which `get_recommendations` raises
instead of returning.  In `ratingsZ` / `mZ`, user `"u00"` (row 0) rated only
`p0`; the other ten users rated only `p1`, so each has cosine similarity
exactly 0 to `"u00"` (orthogonal rows; exact in floating point too).  All ten
selected neighbors therefore carry weight 0 while each has rating 4 > 0 for
the candidate `p1`, so `np.average` is called with `weights` summing to 0 and
raises `ZeroDivisionError` — there is no guard. -/
theorem c10_zero_weight_raises :
    get_user_product_matrix ratingsZ = Except.ok mZ ∧
    get_loc mZ.rowIds "u00" = some 0 ∧
    neighborsUsed mZ simZ "u00" = [10, 9, 8, 7, 6, 5, 4, 3, 2, 1] ∧
    (∀ i ∈ neighborsUsed mZ simZ "u00", (simZ.getD 0 []).getD i 0 = 0) ∧
    (0 < (neighborRatings mZ (neighborsUsed mZ simZ "u00") 1).sum) ∧
    get_recommendations mZ simZ "u00" 5 =
      Except.error "ZeroDivisionError: Weights sum to zero" :=
  ⟨rfl, rfl, by decide, by decide, by decide, rfl⟩
